import Mathlib

/-!
Verification of the perception-to-actuation core of the repository:
movement smoothing (`src/utils/smoothing.py`), easing functions and
trajectory generation (same file), the mouse-controller actuators
(`src/mouse_control/software.py`, `src/mouse_control/arduino.py`) and the
detection loop (`src/gui/app.py`).

Python floats are modelled as real numbers, Python ints as integers,
fallible computations (division that can raise `ZeroDivisionError`) as
`Option`-valued functions.  Stateful classes are modelled as explicit
state-passing functions on a state structure mirroring the instance
attributes that the modelled methods read or write.
-/

set_option maxHeartbeats 1000000

/-! ### MovementSmoother (src/utils/smoothing.py, class MovementSmoother) -/

/-- State of a `MovementSmoother` instance: the instance attributes set in
`MovementSmoother.__init__` that are read or written by `smooth`,
`predict_position` and friends.  Python `last_time` is `None` exactly when
`last_position` is `None` and is only ever read when `last_position` is not
`None`; it is therefore modelled as a plain real (initialised to 0). -/
structure SmootherState where
  windowSize : ℕ
  smoothingFactor : ℝ
  positionHistory : List (ℝ × ℝ)
  velocityHistory : List (ℝ × ℝ)
  lastPosition : Option (ℝ × ℝ)
  lastTime : ℝ
  currentVelocity : ℝ × ℝ
  enableAccelerationSmoothing : Bool
  enableJitterReduction : Bool
  jitterThreshold : ℝ
  maxVelocity : ℝ

/-- `MovementSmoother.__init__(window_size, smoothing_factor)`. -/
noncomputable def MovementSmoother.init (windowSize : ℕ) (smoothingFactor : ℝ) : SmootherState :=
  { windowSize := max 1 windowSize
    smoothingFactor := max 0 (min 1 smoothingFactor)
    positionHistory := []
    velocityHistory := []
    lastPosition := none
    lastTime := 0
    currentVelocity := (0, 0)
    enableAccelerationSmoothing := true
    enableJitterReduction := true
    jitterThreshold := 2
    maxVelocity := 1000 }

/-- `collections.deque(maxlen := n).append(a)`: append on the right and drop
from the left when the bounded length is exceeded. -/
def dequeAppend {α : Type} (maxlen : ℕ) (xs : List α) (a : α) : List α :=
  let ys := xs ++ [a]
  if maxlen < ys.length then ys.drop (ys.length - maxlen) else ys

/-- The unnormalised weights of `MovementSmoother._apply_moving_average`:
`np.exp(-np.arange(m)[::-1] / 2.0)`, i.e. weight `exp (-(m-1-i)/2)` for
index `i` (most recent position weighted highest). -/
noncomputable def movingAverageWeights (m : ℕ) : List ℝ :=
  (List.range m).map (fun i => Real.exp (-((m - 1 - i : ℕ) : ℝ) / 2))

/-- `MovementSmoother._apply_moving_average(x, y)`: weighted average of the
recorded position history together with the candidate point `(x, y)`,
using exponentially decaying weights (`np.average` normalises them). -/
noncomputable def applyMovingAverage (history : List (ℝ × ℝ)) (x y : ℝ) : ℝ × ℝ :=
  let temp := history ++ [(x, y)]
  let w := movingAverageWeights temp.length
  let total := w.sum
  ((((temp.zip w).map (fun p => p.1.1 * p.2)).sum) / total,
   (((temp.zip w).map (fun p => p.1.2 * p.2)).sum) / total)

/-- The instantaneous velocity computed in `MovementSmoother.smooth`:
`(Δx/Δt, Δy/Δt)` when `Δt > 0`, otherwise the previously recorded
`current_velocity`. -/
noncomputable def MovementSmoother.instVelocity (s : SmootherState) (lp : ℝ × ℝ)
    (x y currentTime : ℝ) : ℝ × ℝ :=
  let dt := currentTime - s.lastTime
  if 0 < dt then ((x - lp.1) / dt, (y - lp.2) / dt) else s.currentVelocity

/-- `MovementSmoother.smooth(x, y, custom_factor)`, with the wall-clock
reading `time.time()` passed in explicitly as `currentTime`.  Returns the
smoothed point together with the updated smoother state. -/
noncomputable def MovementSmoother.smooth (s : SmootherState) (x y currentTime : ℝ)
    (customFactor : Option ℝ) : (ℝ × ℝ) × SmootherState :=
  let factor := customFactor.getD s.smoothingFactor
  match s.lastPosition with
  | none =>
      ((x, y),
       { s with lastPosition := some (x, y)
                lastTime := currentTime
                positionHistory := dequeAppend s.windowSize s.positionHistory (x, y) })
  | some lp =>
      let dt := currentTime - s.lastTime
      let velocity := MovementSmoother.instVelocity s lp x y currentTime
      let velocityHistory :=
        if 0 < dt then dequeAppend s.windowSize s.velocityHistory velocity
        else s.velocityHistory
      let factor :=
        if s.enableJitterReduction = true ∧
            Real.sqrt ((x - lp.1) ^ 2 + (y - lp.2) ^ 2) < s.jitterThreshold
        then min factor 0.2 else factor
      let factor :=
        if s.enableAccelerationSmoothing = true ∧
            s.maxVelocity < Real.sqrt (velocity.1 ^ 2 + velocity.2 ^ 2)
        then min factor 0.3 else factor
      let smoothX := lp.1 + factor * (x - lp.1)
      let smoothY := lp.2 + factor * (y - lp.2)
      let p :=
        if 2 ≤ s.positionHistory.length
        then applyMovingAverage s.positionHistory smoothX smoothY
        else (smoothX, smoothY)
      (p,
       { s with positionHistory := dequeAppend s.windowSize s.positionHistory p
                lastPosition := some p
                lastTime := currentTime
                velocityHistory := velocityHistory
                currentVelocity := velocity })

/-- `MovementSmoother.predict_position(time_ahead)`: `None` when there is no
last position or the velocity history is empty, otherwise the last position
extrapolated by the average of the last up-to-3 recorded velocities. -/
noncomputable def MovementSmoother.predictPosition (s : SmootherState)
    (timeAhead : ℝ) : Option (ℝ × ℝ) :=
  match s.lastPosition with
  | none => none
  | some lp =>
      if s.velocityHistory = [] then none
      else
        let recent := s.velocityHistory.drop (s.velocityHistory.length - 3)
        let avgVx := ((recent.map Prod.fst).sum) / (recent.length : ℝ)
        let avgVy := ((recent.map Prod.snd).sum) / (recent.length : ℝ)
        some (lp.1 + avgVx * timeAhead, lp.2 + avgVy * timeAhead)

/-! ### EasingFunctions (src/utils/smoothing.py, class EasingFunctions) -/

/-- `EasingFunctions.ease_in_out_cubic(t)`. -/
noncomputable def EasingFunctions.easeInOutCubic (t : ℝ) : ℝ :=
  if t < 0.5 then 4 * t * t * t else 1 - (-2 * t + 2) ^ 3 / 2

/-- `EasingFunctions.ease_out_elastic(t)`. -/
noncomputable def EasingFunctions.easeOutElastic (t : ℝ) : ℝ :=
  let c4 := 2 * Real.pi / 3
  if t = 0 then 0
  else if t = 1 then 1
  else (2 : ℝ) ^ (-10 * t) * Real.sin ((t * 10 - 0.75) * c4) + 1

/-- `EasingFunctions.ease_in_out_back(t)`. -/
noncomputable def EasingFunctions.easeInOutBack (t : ℝ) : ℝ :=
  let c1 : ℝ := 1.70158
  let c2 := c1 * 1.525
  if t < 0.5 then ((2 * t) ^ 2 * ((c2 + 1) * 2 * t - c2)) / 2
  else ((2 * t - 2) ^ 2 * ((c2 + 1) * (t * 2 - 2) + c2) + 2) / 2

/-- `EasingFunctions.ease_out_bounce(t)`, exactly as written in the source:
note that the three non-initial segments multiply the shifted argument by
the UNshifted `t` (`n1 * (t - shift) * t + offset`). -/
noncomputable def EasingFunctions.easeOutBounce (t : ℝ) : ℝ :=
  let n1 : ℝ := 7.5625
  let d1 : ℝ := 2.75
  if t < 1 / d1 then n1 * t * t
  else if t < 2 / d1 then n1 * (t - 1.5 / d1) * t + 0.75
  else if t < 2.5 / d1 then n1 * (t - 2.25 / d1) * t + 0.9375
  else n1 * (t - 2.625 / d1) * t + 0.984375

/-- Modelled from the spec: the standard bounce-out easing curve the spec
requires (`Formulas must match standard named easing curves`, with bounce
segments `n1 * (t - shift) ^ 2 + offset` at breakpoints `1/2.75`, `2/2.75`,
`2.5/2.75`).  Used to compare the source implementation against the
specified curve. -/
noncomputable def easeOutBounceSpec (t : ℝ) : ℝ :=
  let n1 : ℝ := 7.5625
  let d1 : ℝ := 2.75
  if t < 1 / d1 then n1 * t * t
  else if t < 2 / d1 then n1 * (t - 1.5 / d1) ^ 2 + 0.75
  else if t < 2.5 / d1 then n1 * (t - 2.25 / d1) ^ 2 + 0.9375
  else n1 * (t - 2.625 / d1) ^ 2 + 0.984375

/-! ### TrajectoryGenerator (src/utils/smoothing.py, class TrajectoryGenerator)

Python `a / b` on numbers raises `ZeroDivisionError` when `b == 0`; that
fallibility is modelled by an `Option`-valued division, threaded through
the path loops with `List.mapM`. -/

/-- Python true division: `none` models `ZeroDivisionError`. -/
noncomputable def pyDiv (a b : ℝ) : Option ℝ :=
  if b = 0 then none else some (a / b)

/-- `math.atan2(y, x)`, modelled by the argument of the complex number
`x + y*i` (both lie in `(-π, π]` and agree on all quadrants and axes). -/
noncomputable def atan2 (y x : ℝ) : ℝ :=
  Complex.arg ⟨x, y⟩

/-- The closed set of curve types `generate_smooth_path` dispatches on
(any other string returns `[start, end]` without using `num_points`). -/
inductive CurveType
  | linear
  | bezier
  | arc
deriving DecidableEq

/-- The point placed by one iteration of `_linear_path` at parameter `t`. -/
noncomputable def linearPoint (s e : ℝ × ℝ) (t : ℝ) : ℝ × ℝ :=
  (s.1 + t * (e.1 - s.1), s.2 + t * (e.2 - s.2))

/-- `TrajectoryGenerator._linear_path(start, end, num_points)`. -/
noncomputable def TrajectoryGenerator.linearPath (s e : ℝ × ℝ) (numPoints : ℕ) :
    Option (List (ℝ × ℝ)) :=
  (List.range (numPoints + 1)).mapM (fun i : ℕ => do
    let t ← pyDiv (i : ℝ) (numPoints : ℝ)
    pure (linearPoint s e t))

/-- The control point of `TrajectoryGenerator._bezier_path`: the midpoint
offset perpendicularly by 20 percent of the segment length (the midpoint
itself when start and end coincide). -/
noncomputable def TrajectoryGenerator.bezierControl (s e : ℝ × ℝ) : ℝ × ℝ :=
  let midX := (s.1 + e.1) / 2
  let midY := (s.2 + e.2) / 2
  let dx := e.1 - s.1
  let dy := e.2 - s.2
  let length := Real.sqrt (dx * dx + dy * dy)
  if 0 < length then
    (midX - dy * (length * 0.2) / length, midY + dx * (length * 0.2) / length)
  else (midX, midY)

/-- The quadratic Bézier point placed by one iteration of `_bezier_path`
at parameter `t`. -/
noncomputable def bezierPoint (s e : ℝ × ℝ) (t : ℝ) : ℝ × ℝ :=
  ((1 - t) ^ 2 * s.1 + 2 * (1 - t) * t * (TrajectoryGenerator.bezierControl s e).1 + t ^ 2 * e.1,
   (1 - t) ^ 2 * s.2 + 2 * (1 - t) * t * (TrajectoryGenerator.bezierControl s e).2 + t ^ 2 * e.2)

/-- `TrajectoryGenerator._bezier_path(start, end, num_points)`: quadratic
Bézier through the offset control point. -/
noncomputable def TrajectoryGenerator.bezierPath (s e : ℝ × ℝ) (numPoints : ℕ) :
    Option (List (ℝ × ℝ)) :=
  (List.range (numPoints + 1)).mapM (fun i : ℕ => do
    let t ← pyDiv (i : ℝ) (numPoints : ℝ)
    pure (bezierPoint s e t))

/-- Arc centre of `TrajectoryGenerator._arc_path`: the midpoint. -/
noncomputable def TrajectoryGenerator.arcCenter (s e : ℝ × ℝ) : ℝ × ℝ :=
  ((s.1 + e.1) / 2, (s.2 + e.2) / 2)

/-- Arc radius of `TrajectoryGenerator._arc_path`: half the distance. -/
noncomputable def TrajectoryGenerator.arcRadius (s e : ℝ × ℝ) : ℝ :=
  Real.sqrt ((e.1 - s.1) ^ 2 + (e.2 - s.2) ^ 2) / 2

/-- `start_angle = math.atan2(start[1] - center_y, start[0] - center_x)`. -/
noncomputable def TrajectoryGenerator.arcStartAngle (s e : ℝ × ℝ) : ℝ :=
  atan2 (s.2 - (TrajectoryGenerator.arcCenter s e).2) (s.1 - (TrajectoryGenerator.arcCenter s e).1)

/-- `end_angle = math.atan2(end[1] - center_y, end[0] - center_x)` before
the long-arc adjustment. -/
noncomputable def TrajectoryGenerator.arcEndAngleRaw (s e : ℝ × ℝ) : ℝ :=
  atan2 (e.2 - (TrajectoryGenerator.arcCenter s e).2) (e.1 - (TrajectoryGenerator.arcCenter s e).1)

/-- The end angle after the adjustment that keeps the sweep at most `π`
(shift by `∓2π` when `|end_angle - start_angle| > π`). -/
noncomputable def TrajectoryGenerator.arcEndAngle (s e : ℝ × ℝ) : ℝ :=
  let angleDiff := TrajectoryGenerator.arcEndAngleRaw s e - TrajectoryGenerator.arcStartAngle s e
  if Real.pi < |angleDiff| then
    (if 0 < angleDiff then TrajectoryGenerator.arcEndAngleRaw s e - 2 * Real.pi
     else TrajectoryGenerator.arcEndAngleRaw s e + 2 * Real.pi)
  else TrajectoryGenerator.arcEndAngleRaw s e

/-- The point placed by one iteration of `_arc_path` at parameter `t`. -/
noncomputable def arcPoint (s e : ℝ × ℝ) (t : ℝ) : ℝ × ℝ :=
  let angle := TrajectoryGenerator.arcStartAngle s e +
    t * (TrajectoryGenerator.arcEndAngle s e - TrajectoryGenerator.arcStartAngle s e)
  ((TrajectoryGenerator.arcCenter s e).1 + TrajectoryGenerator.arcRadius s e * Real.cos angle,
   (TrajectoryGenerator.arcCenter s e).2 + TrajectoryGenerator.arcRadius s e * Real.sin angle)

/-- `TrajectoryGenerator._arc_path(start, end, num_points)`: circular arc
centred at the midpoint, radius half the distance, sweeping from the start
angle to the adjusted end angle. -/
noncomputable def TrajectoryGenerator.arcPath (s e : ℝ × ℝ) (numPoints : ℕ) :
    Option (List (ℝ × ℝ)) :=
  (List.range (numPoints + 1)).mapM (fun i : ℕ => do
    let t ← pyDiv (i : ℝ) (numPoints : ℝ)
    pure (arcPoint s e t))

/-- `TrajectoryGenerator.generate_smooth_path(start, end, curve_type,
num_points)` restricted to the three recognised curve types. -/
noncomputable def TrajectoryGenerator.generateSmoothPath (s e : ℝ × ℝ)
    (curveType : CurveType) (numPoints : ℕ) : Option (List (ℝ × ℝ)) :=
  match curveType with
  | CurveType.linear => TrajectoryGenerator.linearPath s e numPoints
  | CurveType.bezier => TrajectoryGenerator.bezierPath s e numPoints
  | CurveType.arc => TrajectoryGenerator.arcPath s e numPoints

/-! ### SoftwareMouseController (src/mouse_control/software.py) -/

/-- A movement dict placed on `SoftwareMouseController.movement_queue`
(the `action` tag plus its parameters). -/
inductive SoftwareMovement
  | moveTo (x y : ℤ) (duration : ℚ)
  | moveRelative (dx dy : ℤ)
  | click (button : String)
  | press (button : String)
  | release (button : String)
  | scroll (direction : ℤ)
deriving DecidableEq

/-- The `SoftwareMouseController` state relevant to enqueueing:
virtual position, virtual screen size, and the FIFO movement queue. -/
structure SoftwareMouseState where
  virtualX : ℤ
  virtualY : ℤ
  screenWidth : ℤ
  screenHeight : ℤ
  movementQueue : List SoftwareMovement
deriving DecidableEq

/-- `SoftwareMouseController.__init__`. -/
def SoftwareMouseController.init : SoftwareMouseState :=
  { virtualX := 960, virtualY := 540
    screenWidth := 1920, screenHeight := 1080
    movementQueue := [] }

/-- `SoftwareMouseController.move_to(x, y, duration)`: clamps the target to
the virtual screen, then appends a `move_to` movement to the queue. -/
def SoftwareMouseController.moveTo (s : SoftwareMouseState) (x y : ℤ) (duration : ℚ) :
    SoftwareMouseState :=
  let cx := max 0 (min x (s.screenWidth - 1))
  let cy := max 0 (min y (s.screenHeight - 1))
  { s with movementQueue := s.movementQueue ++ [SoftwareMovement.moveTo cx cy duration] }

/-! ### ArduinoController (src/mouse_control/arduino.py) -/

/-- A command dict placed on `ArduinoController.command_queue`
(the `cmd` tag plus its parameters). -/
inductive ArduinoCommand
  | moveAbs (x y : ℤ)
  | moveRel (dx dy : ℤ)
  | click (button : String)
  | press (button : String)
  | release (button : String)
  | scroll (direction : ℤ)
deriving DecidableEq

/-- The `ArduinoController` state relevant to enqueueing: the connection
flag and the FIFO command queue. -/
structure ArduinoState where
  isConnected : Bool
  commandQueue : List ArduinoCommand
deriving DecidableEq

/-- `ArduinoController.move_to(x, y, duration)`: a no-op when disconnected,
otherwise appends `{"cmd": "move_abs", "x": int(x), "y": int(y)}` to the
command queue.  The coordinates are NOT clamped, and `duration` is unused
(per the docstring, not used on the Arduino). -/
def ArduinoController.moveTo (s : ArduinoState) (x y : ℤ) (_duration : ℚ) :
    ArduinoState :=
  if s.isConnected = true then
    { s with commandQueue := s.commandQueue ++ [ArduinoCommand.moveAbs x y] }
  else s

/-- Outcome of one connection attempt in `ArduinoController.connect`:
opening the serial port raises (`serial.SerialException` or other), or the
`ping` handshake times out without a `pong` within 3 seconds
(`_test_communication` returns `False`), or the handshake succeeds. -/
inductive AttemptResult
  | serialError
  | handshakeFailed
  | handshakeOk
deriving DecidableEq

/-- `ArduinoController.max_retries` (set in `__init__`). -/
def ArduinoController.maxRetries : ℕ := 3

/-- The attempt loop of `ArduinoController.connect`, with the environment
(the result of each numbered attempt) passed in as `outcomes`.  Returns
whether connection succeeded together with the number of attempts made. -/
def connectFrom (outcomes : ℕ → AttemptResult) : ℕ → ℕ → Bool × ℕ
  | _, 0 => (false, 0)
  | i, n + 1 =>
      match outcomes i with
      | AttemptResult.handshakeOk => (true, 1)
      | _ =>
          let r := connectFrom outcomes (i + 1) n
          (r.1, r.2 + 1)

/-- `ArduinoController.connect()`: `for attempt in range(self.max_retries)`,
returning `True` on the first successful handshake and `False` after
`max_retries` failed attempts. -/
def ArduinoController.connect (outcomes : ℕ → AttemptResult) : Bool × ℕ :=
  connectFrom outcomes 0 ArduinoController.maxRetries

/-! ### FIFO command queue and worker (software.py `_simulation_loop`,
arduino.py `_worker_loop`)

Both worker loops execute, under the queue lock, `queue.pop(0)` followed by
dispatch of the popped command; producers append under the same lock.  The
interleaving of lock-protected operations is modelled as an arbitrary
sequence of atomic events. -/

/-- Queue plus the observer trace of executed commands. -/
structure QueueSystem (α : Type) where
  queue : List α
  executed : List α
deriving DecidableEq

/-- Producer enqueue (`self.xxx_queue.append(command)` under the lock). -/
def QueueSystem.enq {α : Type} (s : QueueSystem α) (c : α) : QueueSystem α :=
  { s with queue := s.queue ++ [c] }

/-- One worker-loop poll: under the lock, if the queue is nonempty, pop the
front command and execute it (recorded on the observer trace). -/
def QueueSystem.workerStep {α : Type} (s : QueueSystem α) : QueueSystem α :=
  match s.queue with
  | [] => s
  | c :: rest => { queue := rest, executed := s.executed ++ [c] }

/-- An atomic lock-protected event: a producer enqueue or a worker poll. -/
inductive QueueEvent (α : Type)
  | enq (c : α)
  | work
deriving DecidableEq

/-- Apply one event. -/
def QueueSystem.stepEvent {α : Type} (s : QueueSystem α) : QueueEvent α → QueueSystem α
  | QueueEvent.enq c => s.enq c
  | QueueEvent.work => s.workerStep

/-- Run a sequence of interleaved events. -/
def QueueSystem.runEvents {α : Type} (s : QueueSystem α) : List (QueueEvent α) → QueueSystem α
  | [] => s
  | e :: es => (s.stepEvent e).runEvents es

/-- The commands enqueued by an event sequence, in enqueue order. -/
def enqueuedOf {α : Type} : List (QueueEvent α) → List α
  | [] => []
  | QueueEvent.enq c :: es => c :: enqueuedOf es
  | QueueEvent.work :: es => enqueuedOf es

/-- A fresh controller: empty queue, nothing executed. -/
def QueueSystem.empty {α : Type} : QueueSystem α := ⟨[], []⟩

/-! ### DetectionThread (src/gui/app.py, class DetectionThread) -/

/-- The fields of a detection dict read by `DetectionThread.run`. -/
structure Detection where
  confidence : ℝ
  center : ℝ × ℝ

/-- Externally observable calls made by one iteration of
`DetectionThread.run`. -/
inductive LoopCall
  | detectorInvoked
  | actuatorInvoked (x y : ℝ)
  | resultEmitted

/-- One iteration of the `while self.running` body of `DetectionThread.run`,
with the capturer result passed in as `frame` and the detector as a
function.  A `None` frame skips the iteration (`continue`): no detector
call, no actuator call.  Otherwise the detector runs and the first
detection with confidence at or above the threshold is smoothed and sent
to the mouse controller, then the result is emitted. -/
noncomputable def DetectionThread.runIteration {F : Type}
    (frame : Option F) (detect : F → List Detection)
    (confidenceThreshold smoothingFactor : ℝ)
    (smoother : SmootherState) (currentTime : ℝ) : List LoopCall × SmootherState :=
  match frame with
  | none => ([], smoother)
  | some f =>
      let detections := detect f
      match detections.find? (fun d => decide (confidenceThreshold ≤ d.confidence)) with
      | none => ([LoopCall.detectorInvoked], smoother)
      | some d =>
          let r := MovementSmoother.smooth smoother d.center.1 d.center.2 currentTime
            (some smoothingFactor)
          ([LoopCall.detectorInvoked, LoopCall.actuatorInvoked r.1.1 r.1.2,
            LoopCall.resultEmitted], r.2)

/-- `n` successive iterations of the detection loop, driven by a stream of
capture results and wall-clock readings. -/
noncomputable def DetectionThread.runIterations {F : Type}
    (captures : ℕ → Option F) (detect : F → List Detection)
    (confidenceThreshold smoothingFactor : ℝ) (times : ℕ → ℝ)
    (smoother : SmootherState) : ℕ → List LoopCall × SmootherState
  | 0 => ([], smoother)
  | n + 1 =>
      let prev := DetectionThread.runIterations captures detect confidenceThreshold
        smoothingFactor times smoother n
      let step := DetectionThread.runIteration (captures n) detect confidenceThreshold
        smoothingFactor prev.2 (times n)
      (prev.1 ++ step.1, step.2)

/-! ### Concrete fixture states used by witnesses and counterexamples -/

/-- `MovementSmoother(window_size=5, smoothing_factor=1.0)`. -/
noncomputable def smootherA0 : SmootherState := MovementSmoother.init 5 1

/-- The smoother above after one call `smooth(0, 0)` at time 0. -/
noncomputable def smootherA1 : SmootherState :=
  (MovementSmoother.smooth smootherA0 0 0 0 none).2

/-- `MovementSmoother(window_size=1, smoothing_factor=0.5)`. -/
noncomputable def smootherB0 : SmootherState := MovementSmoother.init 1 (1 / 2)

/-- The smoother above after `smooth(0, 0, custom_factor=0.1)` at time 0. -/
noncomputable def smootherB1 : SmootherState :=
  (MovementSmoother.smooth smootherB0 0 0 0 (some (1 / 10))).2

/-- The smoother above after a further `smooth(10, 0, custom_factor=0.1)`
at time 1 (raw input `(10, 0)`, smoothed output `(1, 0)`). -/
noncomputable def smootherB2 : SmootherState :=
  (MovementSmoother.smooth smootherB1 10 0 1 (some (1 / 10))).2

/-- A smoother state with four recorded velocity samples, for exercising
`predict_position`. -/
noncomputable def smootherC : SmootherState :=
  { windowSize := 5
    smoothingFactor := 1 / 2
    positionHistory := [(5, 5)]
    velocityHistory := [(1, 0), (2, 0), (3, 0), (4, 0)]
    lastPosition := some (5, 5)
    lastTime := 4
    currentVelocity := (4, 0)
    enableAccelerationSmoothing := true
    enableJitterReduction := true
    jitterThreshold := 2
    maxVelocity := 1000 }

/-- A connected Arduino controller with an empty command queue. -/
def arduinoConnectedState : ArduinoState := ⟨true, []⟩

/-! ## General helper lemmas -/

theorem mapM_eq_some_map {α β : Type} (f : α → Option β) (g : α → β) :
    ∀ l : List α, (∀ a ∈ l, f a = some (g a)) → l.mapM f = some (l.map g) := by
  intro l
  induction l with
  | nil => intro _; rfl
  | cons a l ih =>
      intro h
      rw [List.mapM_cons, h a (List.mem_cons_self a l),
        ih (fun b hb => h b (List.mem_cons_of_mem a hb))]
      rfl

theorem mapM_range_one_none {β : Type} (f : ℕ → Option β) (h : f 0 = none) :
    (List.range 1).mapM f = none := by
  rw [show List.range 1 = [0] from rfl, List.mapM_cons, h]
  rfl

theorem real_sqrt_hundred : Real.sqrt 100 = 10 := by
  rw [show (100 : ℝ) = 10 ^ 2 by norm_num, Real.sqrt_sq (by norm_num : (0:ℝ) ≤ 10)]

theorem real_sqrt_four : Real.sqrt 4 = 2 := by
  rw [show (4 : ℝ) = 2 ^ 2 by norm_num, Real.sqrt_sq (by norm_num : (0:ℝ) ≤ 2)]

/-! ## Claim C3: easing functions

The first three easing functions match the standard curves, but
`ease_out_bounce` does not: its three non-initial segments read
`n1 * (t - shift) * t + offset` where the standard curve squares the
shifted argument, `n1 * (t - shift) ^ 2 + offset`.  In particular the
source function maps `t = 1` to `1.328125`, not `1`. -/

/-- **C3** (code_bug evidence): the source `ease_out_bounce` evaluated at the
failing input `t = 1` yields `1.328125`, while the standard bounce-out curve
demanded by the spec (`easeOutBounceSpec`) yields `1` there; the two curves
also differ inside the middle segment, e.g. at `t = 0.5`. -/
theorem easeOutBounce_deviates_from_standard :
    EasingFunctions.easeOutBounce 1 = 1.328125 ∧ easeOutBounceSpec 1 = 1 ∧
    EasingFunctions.easeOutBounce 0.5 ≠ easeOutBounceSpec 0.5 := by
  refine ⟨?_, ?_, ?_⟩
  · rw [EasingFunctions.easeOutBounce]
    norm_num
  · rw [easeOutBounceSpec]
    norm_num
  · rw [EasingFunctions.easeOutBounce, easeOutBounceSpec]
    norm_num

/-! ## Claim C7: bounded connect with handshake retries -/

theorem connectFrom_attempts_le (o : ℕ → AttemptResult) :
    ∀ n i, (connectFrom o i n).2 ≤ n := by
  intro n
  induction n with
  | zero => intro i; simp [connectFrom]
  | succ n ih =>
      intro i
      cases h : o i with
      | handshakeOk => simp [connectFrom, h]
      | serialError =>
          have := ih (i + 1)
          simp only [connectFrom, h]
          omega
      | handshakeFailed =>
          have := ih (i + 1)
          simp only [connectFrom, h]
          omega

theorem connectFrom_all_fail (o : ℕ → AttemptResult) :
    ∀ n i, (∀ j, j < n → o (i + j) ≠ AttemptResult.handshakeOk) →
      connectFrom o i n = (false, n) := by
  intro n
  induction n with
  | zero => intro i _; rfl
  | succ n ih =>
      intro i h
      have h0 : o i ≠ AttemptResult.handshakeOk := by
        have := h 0 (Nat.succ_pos n)
        simpa using this
      have hrec : connectFrom o (i + 1) n = (false, n) := by
        refine ih (i + 1) (fun j hj => ?_)
        have hh := h (j + 1) (by omega)
        have e : i + (j + 1) = i + 1 + j := by omega
        rw [e] at hh
        exact hh
      cases hoi : o i with
      | handshakeOk => exact absurd hoi h0
      | serialError => simp [connectFrom, hoi, hrec]
      | handshakeFailed => simp [connectFrom, hoi, hrec]

theorem connectFrom_congr (o1 o2 : ℕ → AttemptResult) :
    ∀ n i, (∀ j, j < n → o1 (i + j) = o2 (i + j)) →
      connectFrom o1 i n = connectFrom o2 i n := by
  intro n
  induction n with
  | zero => intro i _; rfl
  | succ n ih =>
      intro i h
      have h0 : o1 i = o2 i := by
        have := h 0 (Nat.succ_pos n)
        simpa using this
      have hrec : connectFrom o1 (i + 1) n = connectFrom o2 (i + 1) n := by
        refine ih (i + 1) (fun j hj => ?_)
        have hh := h (j + 1) (by omega)
        have e : i + (j + 1) = i + 1 + j := by omega
        rw [e] at hh
        exact hh
      cases hoi : o1 i with
      | handshakeOk => simp [connectFrom, hoi, ← h0, hrec]
      | serialError => simp [connectFrom, hoi, ← h0, hrec]
      | handshakeFailed => simp [connectFrom, hoi, ← h0, hrec]

/-- **C7** (confirmed): `ArduinoController.connect` makes at most
`max_retries = 3` attempts; when the first three attempts all fail (a
serial error or an unacknowledged ping handshake both count as a failed
attempt), it returns failure having made exactly 3 attempts; and its result
depends only on the outcomes of the first three attempts, i.e. it makes no
further attempts after them. -/
theorem connect_bounded_retries (outcomes : ℕ → AttemptResult) :
    (ArduinoController.connect outcomes).2 ≤ ArduinoController.maxRetries ∧
    ((∀ i, i < ArduinoController.maxRetries → outcomes i ≠ AttemptResult.handshakeOk) →
      ArduinoController.connect outcomes = (false, ArduinoController.maxRetries)) ∧
    (∀ o2 : ℕ → AttemptResult,
      (∀ i, i < ArduinoController.maxRetries → outcomes i = o2 i) →
      ArduinoController.connect outcomes = ArduinoController.connect o2) := by
  refine ⟨?_, ?_, ?_⟩
  · exact connectFrom_attempts_le outcomes ArduinoController.maxRetries 0
  · intro h
    exact connectFrom_all_fail outcomes ArduinoController.maxRetries 0
      (fun j hj => by simpa using h j hj)
  · intro o2 h
    exact connectFrom_congr outcomes o2 ArduinoController.maxRetries 0
      (fun j hj => by simpa using h j hj)

/-- Witness for C7: with every handshake unacknowledged, `connect` fails
after exactly `max_retries = 3` attempts. -/
theorem connect_bounded_retries_witness :
    ArduinoController.connect (fun _ => AttemptResult.handshakeFailed)
      = (false, ArduinoController.maxRetries) :=
  (connect_bounded_retries (fun _ => AttemptResult.handshakeFailed)).2.1
    (by intro i _; simp)

/-! ## Claim C4: FIFO execution, exactly once, in enqueue order -/

theorem runEvents_exec_queue {α : Type} :
    ∀ (es : List (QueueEvent α)) (s : QueueSystem α),
      (s.runEvents es).executed ++ (s.runEvents es).queue
        = s.executed ++ s.queue ++ enqueuedOf es := by
  intro es
  induction es with
  | nil => intro s; simp [QueueSystem.runEvents, enqueuedOf]
  | cons e es ih =>
      intro s
      cases e with
      | enq c =>
          rw [QueueSystem.runEvents, ih]
          simp [QueueSystem.stepEvent, QueueSystem.enq, enqueuedOf]
      | work =>
          rw [QueueSystem.runEvents, ih]
          cases hq : s.queue with
          | nil => simp [QueueSystem.stepEvent, QueueSystem.workerStep, hq, enqueuedOf]
          | cons c rest => simp [QueueSystem.stepEvent, QueueSystem.workerStep, hq, enqueuedOf]

/-- **C4** (confirmed): for any interleaving of producer enqueues and
worker polls starting from a fresh actuator, the observer trace of executed
commands followed by the commands still queued is exactly the enqueued
sequence in enqueue order — so each command is executed at most once, in
strict FIFO order; and once the queue has drained, the trace is exactly the
enqueued sequence (each command executed exactly once). -/
theorem fifo_execution_order {α : Type} (es : List (QueueEvent α)) :
    ((QueueSystem.empty.runEvents es).executed ++ (QueueSystem.empty.runEvents es).queue
      = enqueuedOf es) ∧
    ((QueueSystem.empty.runEvents es).queue = [] →
      (QueueSystem.empty.runEvents es).executed = enqueuedOf es) := by
  have h := runEvents_exec_queue es (QueueSystem.empty (α := α))
  have he : (QueueSystem.empty (α := α)).executed = [] := rfl
  have hq0 : (QueueSystem.empty (α := α)).queue = [] := rfl
  rw [he, hq0, List.nil_append, List.nil_append] at h
  refine ⟨h, fun hq => ?_⟩
  rw [hq, List.append_nil] at h
  exact h

/-- Witness for C4: enqueueing `7` then `9` interleaved with three worker
polls executes exactly `[7, 9]`, in that order. -/
theorem fifo_execution_order_witness :
    (QueueSystem.empty.runEvents
      [QueueEvent.enq 7, QueueEvent.work, QueueEvent.enq 9,
       QueueEvent.work, QueueEvent.work]).executed = enqueuedOf
      [QueueEvent.enq 7, QueueEvent.work, QueueEvent.enq 9,
       QueueEvent.work, QueueEvent.work] :=
  (fifo_execution_order
    [QueueEvent.enq (7 : ℕ), QueueEvent.work, QueueEvent.enq 9,
     QueueEvent.work, QueueEvent.work]).2 rfl

/-! ## Claim C9: frame-unavailable iterations are skipped silently -/

/-- **C9** (confirmed): if the capturer returns no frame for each of the
first `n` iterations, the detection loop makes no detector call and no
actuator call in those iterations (empty call trace) and leaves the
smoother untouched; the iteration function is total, so no exception
escapes the loop body. -/
theorem detection_loop_skips_missing_frames {F : Type} (captures : ℕ → Option F)
    (detect : F → List Detection) (confidenceThreshold smoothingFactor : ℝ)
    (times : ℕ → ℝ) (smoother : SmootherState) (n : ℕ)
    (hnone : ∀ i, i < n → captures i = none) :
    DetectionThread.runIterations captures detect confidenceThreshold smoothingFactor
      times smoother n = ([], smoother) := by
  induction n with
  | zero => rfl
  | succ n ih =>
      have hn : ∀ i, i < n → captures i = none := fun i hi => hnone i (by omega)
      rw [DetectionThread.runIterations, ih hn, hnone n (Nat.lt_succ_self n)]
      rfl

/-- Witness for C9: ten consecutive frame-unavailable iterations produce an
empty call trace and an unchanged smoother. -/
theorem detection_loop_skips_missing_frames_witness :
    DetectionThread.runIterations (fun _ => (none : Option ℕ)) (fun _ => [])
      (1 / 2) (1 / 2) (fun _ => 0) smootherA0 10 = ([], smootherA0) :=
  detection_loop_skips_missing_frames (fun _ => (none : Option ℕ)) (fun _ => [])
    (1 / 2) (1 / 2) (fun _ => 0) smootherA0 10 (fun _ _ => rfl)

/-! ## Claim C2: clamping before enqueue

`SoftwareMouseController.move_to` clamps the target to its virtual screen
before enqueueing.  `ArduinoController.move_to` does not clamp at all: it
enqueues `{"cmd": "move_abs", "x": int(x), "y": int(y)}` with the raw
coordinates (the Arduino backend has no notion of screen bounds), so the
claim fails for that actuator variant. -/

/-- **C2** (counterexample): on a connected Arduino controller,
`move_to(5000, 300)` enqueues the command with the raw coordinate `5000`
untouched — outside `[0, 1919]`, the known screen bounds of the program
(the software controller's virtual screen is 1920×1080) — so the target is
not clamped to any screen bounds before enqueue. -/
theorem arduino_move_to_not_clamped :
    (ArduinoController.moveTo arduinoConnectedState 5000 300 0).commandQueue
      = [ArduinoCommand.moveAbs 5000 300] ∧
    ¬ ((5000 : ℤ) ≤ 1920 - 1) := by
  exact ⟨rfl, by decide⟩

/-- **C2** (amended): the software actuator clamps the target to its known
screen bounds before enqueueing, while the hardware-serial (Arduino)
actuator enqueues the raw integer target unmodified (it never clamps);
in both cases the command is appended at the back of the FIFO queue. -/
theorem move_to_clamping_per_variant (ss : SoftwareMouseState) (as : ArduinoState)
    (x y : ℤ) (d : ℚ) (hw : 0 < ss.screenWidth) (hh : 0 < ss.screenHeight)
    (hc : as.isConnected = true) :
    (∃ cx cy : ℤ,
      (SoftwareMouseController.moveTo ss x y d).movementQueue
        = ss.movementQueue ++ [SoftwareMovement.moveTo cx cy d] ∧
      0 ≤ cx ∧ cx ≤ ss.screenWidth - 1 ∧ 0 ≤ cy ∧ cy ≤ ss.screenHeight - 1) ∧
    (ArduinoController.moveTo as x y d).commandQueue
      = as.commandQueue ++ [ArduinoCommand.moveAbs x y] := by
  constructor
  · refine ⟨max 0 (min x (ss.screenWidth - 1)), max 0 (min y (ss.screenHeight - 1)),
      rfl, le_max_left 0 _, ?_, le_max_left 0 _, ?_⟩
    · exact max_le (by omega) (min_le_right x (ss.screenWidth - 1))
    · exact max_le (by omega) (min_le_right y (ss.screenHeight - 1))
  · simp [ArduinoController.moveTo, hc]

/-- Witness for the amended C2 at concrete inputs: a fresh software
controller and a connected Arduino controller, each asked to move to
`(5000, -7)`. -/
theorem move_to_clamping_per_variant_witness :
    (∃ cx cy : ℤ,
      (SoftwareMouseController.moveTo SoftwareMouseController.init 5000 (-7) 0).movementQueue
        = SoftwareMouseController.init.movementQueue ++ [SoftwareMovement.moveTo cx cy 0] ∧
      0 ≤ cx ∧ cx ≤ SoftwareMouseController.init.screenWidth - 1 ∧
      0 ≤ cy ∧ cy ≤ SoftwareMouseController.init.screenHeight - 1) ∧
    (ArduinoController.moveTo arduinoConnectedState 5000 (-7) 0).commandQueue
      = arduinoConnectedState.commandQueue ++ [ArduinoCommand.moveAbs 5000 (-7)] :=
  move_to_clamping_per_variant SoftwareMouseController.init arduinoConnectedState
    5000 (-7) 0 (by decide) (by decide) rfl

/-! ## Trajectory generation: path equations and endpoint geometry -/

theorem linearPath_eq (s e : ℝ × ℝ) (N : ℕ) (hN : N ≠ 0) :
    TrajectoryGenerator.linearPath s e N
      = some ((List.range (N + 1)).map (fun i : ℕ => linearPoint s e ((i : ℝ) / (N : ℝ)))) := by
  have hNR : ((N : ℕ) : ℝ) ≠ 0 := Nat.cast_ne_zero.mpr hN
  unfold TrajectoryGenerator.linearPath
  apply mapM_eq_some_map
  intro i _
  simp [pyDiv, hNR]

theorem bezierPath_eq (s e : ℝ × ℝ) (N : ℕ) (hN : N ≠ 0) :
    TrajectoryGenerator.bezierPath s e N
      = some ((List.range (N + 1)).map (fun i : ℕ => bezierPoint s e ((i : ℝ) / (N : ℝ)))) := by
  have hNR : ((N : ℕ) : ℝ) ≠ 0 := Nat.cast_ne_zero.mpr hN
  unfold TrajectoryGenerator.bezierPath
  apply mapM_eq_some_map
  intro i _
  simp [pyDiv, hNR]

theorem arcPath_eq (s e : ℝ × ℝ) (N : ℕ) (hN : N ≠ 0) :
    TrajectoryGenerator.arcPath s e N
      = some ((List.range (N + 1)).map (fun i : ℕ => arcPoint s e ((i : ℝ) / (N : ℝ)))) := by
  have hNR : ((N : ℕ) : ℝ) ≠ 0 := Nat.cast_ne_zero.mpr hN
  unfold TrajectoryGenerator.arcPath
  apply mapM_eq_some_map
  intro i _
  simp [pyDiv, hNR]

theorem linearPoint_zero (s e : ℝ × ℝ) : linearPoint s e 0 = s := by
  unfold linearPoint
  refine Prod.ext ?_ ?_
  · show s.1 + 0 * (e.1 - s.1) = s.1
    ring
  · show s.2 + 0 * (e.2 - s.2) = s.2
    ring

theorem linearPoint_one (s e : ℝ × ℝ) : linearPoint s e 1 = e := by
  unfold linearPoint
  refine Prod.ext ?_ ?_
  · show s.1 + 1 * (e.1 - s.1) = e.1
    ring
  · show s.2 + 1 * (e.2 - s.2) = e.2
    ring

theorem bezierPoint_zero (s e : ℝ × ℝ) : bezierPoint s e 0 = s := by
  unfold bezierPoint
  refine Prod.ext ?_ ?_
  · show (1 - 0) ^ 2 * s.1 + 2 * (1 - 0) * 0 * (TrajectoryGenerator.bezierControl s e).1
      + 0 ^ 2 * e.1 = s.1
    ring
  · show (1 - 0) ^ 2 * s.2 + 2 * (1 - 0) * 0 * (TrajectoryGenerator.bezierControl s e).2
      + 0 ^ 2 * e.2 = s.2
    ring

theorem bezierPoint_one (s e : ℝ × ℝ) : bezierPoint s e 1 = e := by
  unfold bezierPoint
  refine Prod.ext ?_ ?_
  · show (1 - 1) ^ 2 * s.1 + 2 * (1 - 1) * 1 * (TrajectoryGenerator.bezierControl s e).1
      + 1 ^ 2 * e.1 = e.1
    ring
  · show (1 - 1) ^ 2 * s.2 + 2 * (1 - 1) * 1 * (TrajectoryGenerator.bezierControl s e).2
      + 1 ^ 2 * e.2 = e.2
    ring

/-- A point at distance `r` and polar angle `atan2` of its offset from a
centre is recovered by `centre + r * (cos, sin)` of that angle. -/
theorem arc_point_recovery (px py cx cy r : ℝ)
    (hr : Real.sqrt ((px - cx) ^ 2 + (py - cy) ^ 2) = r) :
    cx + r * Real.cos (atan2 (py - cy) (px - cx)) = px ∧
    cy + r * Real.sin (atan2 (py - cy) (px - cx)) = py := by
  have habs : Complex.abs ⟨px - cx, py - cy⟩ = r := by
    rw [← hr, Complex.abs_apply, Complex.normSq_mk]
    congr 1
    ring
  have harg : atan2 (py - cy) (px - cx) = Complex.arg ⟨px - cx, py - cy⟩ := rfl
  by_cases h0 : (⟨px - cx, py - cy⟩ : ℂ) = 0
  · have h1 : px - cx = 0 := congrArg Complex.re h0
    have h2 : py - cy = 0 := congrArg Complex.im h0
    have hr0 : r = 0 := by
      rw [← habs, h0]
      simp
    constructor
    · rw [hr0, zero_mul, add_zero]
      linarith
    · rw [hr0, zero_mul, add_zero]
      linarith
  · have hrne : r ≠ 0 := by
      rw [← habs]
      exact Complex.abs.ne_zero h0
    have hre : (⟨px - cx, py - cy⟩ : ℂ).re = px - cx := rfl
    have him : (⟨px - cx, py - cy⟩ : ℂ).im = py - cy := rfl
    constructor
    · rw [harg, Complex.cos_arg h0, hre, habs]
      field_simp
    · rw [harg, Complex.sin_arg, him, habs]
      field_simp

theorem arcRadius_start (s e : ℝ × ℝ) :
    Real.sqrt ((s.1 - (TrajectoryGenerator.arcCenter s e).1) ^ 2
      + (s.2 - (TrajectoryGenerator.arcCenter s e).2) ^ 2)
      = TrajectoryGenerator.arcRadius s e := by
  have h1 : (s.1 - (TrajectoryGenerator.arcCenter s e).1) ^ 2
      + (s.2 - (TrajectoryGenerator.arcCenter s e).2) ^ 2
      = ((e.1 - s.1) ^ 2 + (e.2 - s.2) ^ 2) / 4 := by
    simp only [TrajectoryGenerator.arcCenter]
    ring
  rw [h1, Real.sqrt_div (by positivity) 4, real_sqrt_four, TrajectoryGenerator.arcRadius]

theorem arcRadius_end (s e : ℝ × ℝ) :
    Real.sqrt ((e.1 - (TrajectoryGenerator.arcCenter s e).1) ^ 2
      + (e.2 - (TrajectoryGenerator.arcCenter s e).2) ^ 2)
      = TrajectoryGenerator.arcRadius s e := by
  have h1 : (e.1 - (TrajectoryGenerator.arcCenter s e).1) ^ 2
      + (e.2 - (TrajectoryGenerator.arcCenter s e).2) ^ 2
      = ((e.1 - s.1) ^ 2 + (e.2 - s.2) ^ 2) / 4 := by
    simp only [TrajectoryGenerator.arcCenter]
    ring
  rw [h1, Real.sqrt_div (by positivity) 4, real_sqrt_four, TrajectoryGenerator.arcRadius]

theorem cos_arcEndAngle (s e : ℝ × ℝ) :
    Real.cos (TrajectoryGenerator.arcEndAngle s e)
      = Real.cos (TrajectoryGenerator.arcEndAngleRaw s e) := by
  simp only [TrajectoryGenerator.arcEndAngle]
  split_ifs with h1 h2
  · exact Real.cos_sub_two_pi _
  · exact Real.cos_add_two_pi _
  · rfl

theorem sin_arcEndAngle (s e : ℝ × ℝ) :
    Real.sin (TrajectoryGenerator.arcEndAngle s e)
      = Real.sin (TrajectoryGenerator.arcEndAngleRaw s e) := by
  simp only [TrajectoryGenerator.arcEndAngle]
  split_ifs with h1 h2
  · exact Real.sin_sub_two_pi _
  · exact Real.sin_add_two_pi _
  · rfl

theorem arcPoint_zero (s e : ℝ × ℝ) : arcPoint s e 0 = s := by
  have hang : TrajectoryGenerator.arcStartAngle s e + 0 *
      (TrajectoryGenerator.arcEndAngle s e - TrajectoryGenerator.arcStartAngle s e)
      = TrajectoryGenerator.arcStartAngle s e := by ring
  have h := arc_point_recovery s.1 s.2 (TrajectoryGenerator.arcCenter s e).1
    (TrajectoryGenerator.arcCenter s e).2 (TrajectoryGenerator.arcRadius s e)
    (arcRadius_start s e)
  simp only [arcPoint, hang]
  exact Prod.ext h.1 h.2

theorem arcPoint_one (s e : ℝ × ℝ) : arcPoint s e 1 = e := by
  have hang : TrajectoryGenerator.arcStartAngle s e + 1 *
      (TrajectoryGenerator.arcEndAngle s e - TrajectoryGenerator.arcStartAngle s e)
      = TrajectoryGenerator.arcEndAngle s e := by ring
  have h := arc_point_recovery e.1 e.2 (TrajectoryGenerator.arcCenter s e).1
    (TrajectoryGenerator.arcCenter s e).2 (TrajectoryGenerator.arcRadius s e)
    (arcRadius_end s e)
  simp only [arcPoint, hang, cos_arcEndAngle, sin_arcEndAngle]
  exact Prod.ext h.1 h.2

/-! ## Claim C5: path length and endpoints -/

theorem generate_path_points (s e : ℝ × ℝ) (ct : CurveType) (N : ℕ)
    (hN : 1 ≤ N) :
    ∃ path : List (ℝ × ℝ),
      TrajectoryGenerator.generateSmoothPath s e ct N = some path ∧
      path.length = N + 1 ∧ path.get? 0 = some s ∧ path.get? N = some e := by
  have hN0 : N ≠ 0 := by omega
  have hNR : ((N : ℕ) : ℝ) ≠ 0 := Nat.cast_ne_zero.mpr hN0
  have ht1 : ((N : ℕ) : ℝ) / ((N : ℕ) : ℝ) = 1 := div_self hNR
  cases ct with
  | linear =>
      rw [show TrajectoryGenerator.generateSmoothPath s e CurveType.linear N
        = TrajectoryGenerator.linearPath s e N from rfl, linearPath_eq s e N hN0]
      refine ⟨_, rfl, by simp, ?_, ?_⟩
      · rw [List.get?_map, List.get?_range (by omega : 0 < N + 1)]
        simp [linearPoint_zero]
      · rw [List.get?_map, List.get?_range (by omega : N < N + 1)]
        simp only [Option.map_some']
        rw [ht1, linearPoint_one]
  | bezier =>
      rw [show TrajectoryGenerator.generateSmoothPath s e CurveType.bezier N
        = TrajectoryGenerator.bezierPath s e N from rfl, bezierPath_eq s e N hN0]
      refine ⟨_, rfl, by simp, ?_, ?_⟩
      · rw [List.get?_map, List.get?_range (by omega : 0 < N + 1)]
        simp [bezierPoint_zero]
      · rw [List.get?_map, List.get?_range (by omega : N < N + 1)]
        simp only [Option.map_some']
        rw [ht1, bezierPoint_one]
  | arc =>
      rw [show TrajectoryGenerator.generateSmoothPath s e CurveType.arc N
        = TrajectoryGenerator.arcPath s e N from rfl, arcPath_eq s e N hN0]
      refine ⟨_, rfl, by simp, ?_, ?_⟩
      · rw [List.get?_map, List.get?_range (by omega : 0 < N + 1)]
        simp [arcPoint_zero]
      · rw [List.get?_map, List.get?_range (by omega : N < N + 1)]
        simp only [Option.map_some']
        rw [ht1, arcPoint_one]

/-- **C5** (confirmed): for `num_points = N ≥ 1` and each recognised curve
type, `generate_smooth_path` succeeds and returns exactly `N + 1` points,
with point 0 equal to the start and point `N` equal to the end (exactly, in
real arithmetic). -/
theorem generate_smooth_path_endpoints (s e : ℝ × ℝ) (ct : CurveType) (N : ℕ)
    (hN : 1 ≤ N) :
    ∃ path : List (ℝ × ℝ),
      TrajectoryGenerator.generateSmoothPath s e ct N = some path ∧
      path.length = N + 1 ∧ path.get? 0 = some s ∧ path.get? N = some e :=
  generate_path_points s e ct N hN

/-- Witness for C5: a concrete 3-point bezier path from `(0,0)` to `(4,2)`. -/
theorem generate_smooth_path_endpoints_witness :
    ∃ path : List (ℝ × ℝ),
      TrajectoryGenerator.generateSmoothPath (0, 0) (4, 2) CurveType.bezier 3 = some path ∧
      path.length = 3 + 1 ∧ path.get? 0 = some (0, 0) ∧ path.get? 3 = some (4, 2) :=
  generate_smooth_path_endpoints (0, 0) (4, 2) CurveType.bezier 3 (by norm_num)

/-! ## Claim C10: totality of `generate_smooth_path` in `num_points` -/

/-- **C10** (confirmed): with `num_points = 0` every curve type hits the
division by zero in `t = i / num_points` on the very first loop iteration
(`ZeroDivisionError`, modelled as `none`), while for every `num_points ≥ 1`
the division never fails and a path is returned. -/
theorem generate_smooth_path_zero_points_divides_by_zero :
    (∀ (s e : ℝ × ℝ) (ct : CurveType),
      TrajectoryGenerator.generateSmoothPath s e ct 0 = none) ∧
    (∀ (s e : ℝ × ℝ) (ct : CurveType) (N : ℕ), 1 ≤ N →
      (TrajectoryGenerator.generateSmoothPath s e ct N).isSome = true) := by
  constructor
  · intro s e ct
    cases ct with
    | linear =>
        show TrajectoryGenerator.linearPath s e 0 = none
        unfold TrajectoryGenerator.linearPath
        apply mapM_range_one_none
        simp [pyDiv]
    | bezier =>
        show TrajectoryGenerator.bezierPath s e 0 = none
        unfold TrajectoryGenerator.bezierPath
        apply mapM_range_one_none
        simp [pyDiv]
    | arc =>
        show TrajectoryGenerator.arcPath s e 0 = none
        unfold TrajectoryGenerator.arcPath
        apply mapM_range_one_none
        simp [pyDiv]
  · intro s e ct N hN
    obtain ⟨path, hpath, -⟩ := generate_path_points s e ct N hN
    rw [hpath]
    rfl

/-- Witness for C10: the linear path with `num_points = 0` fails with a
division by zero while `num_points = 2` succeeds. -/
theorem generate_smooth_path_zero_points_witness :
    TrajectoryGenerator.generateSmoothPath (0, 0) (1, 1) CurveType.linear 0 = none ∧
    (TrajectoryGenerator.generateSmoothPath (0, 0) (1, 1) CurveType.linear 2).isSome = true :=
  ⟨generate_smooth_path_zero_points_divides_by_zero.1 (0, 0) (1, 1) CurveType.linear,
   generate_smooth_path_zero_points_divides_by_zero.2 (0, 0) (1, 1) CurveType.linear 2
     (by norm_num)⟩

/-! ## Claim C8: position prediction -/

/-- **C8** (confirmed): `predict_position` returns `None` whenever there is
no recorded history (no last position, or an empty velocity history — after
any first `smooth` call the two coincide); otherwise it returns the last
position extrapolated by the average of the last up-to-3 recorded velocity
samples times `time_ahead`. -/
theorem predict_position_spec (s : SmootherState) (timeAhead : ℝ) :
    ((s.lastPosition = none ∨ s.velocityHistory = []) →
      MovementSmoother.predictPosition s timeAhead = none) ∧
    (∀ lp : ℝ × ℝ, s.lastPosition = some lp → s.velocityHistory ≠ [] →
      MovementSmoother.predictPosition s timeAhead
        = some (lp.1 + (((s.velocityHistory.reverse.take 3).map Prod.fst).sum
              / ((s.velocityHistory.reverse.take 3).length : ℝ)) * timeAhead,
            lp.2 + (((s.velocityHistory.reverse.take 3).map Prod.snd).sum
              / ((s.velocityHistory.reverse.take 3).length : ℝ)) * timeAhead)) := by
  constructor
  · rintro (h | h)
    · simp [MovementSmoother.predictPosition, h]
    · cases hlp : s.lastPosition with
      | none => simp [MovementSmoother.predictPosition, hlp]
      | some lp => simp [MovementSmoother.predictPosition, hlp, h]
  · intro lp hlp hne
    have hd : s.velocityHistory.drop (s.velocityHistory.length - 3)
        = (s.velocityHistory.reverse.take 3).reverse := by
      rw [List.take_reverse, List.reverse_reverse]
    simp only [MovementSmoother.predictPosition, hlp, if_neg hne]
    rw [hd]
    simp [List.map_reverse, List.sum_reverse, List.length_reverse]

/-- Witness for C8: on a smoother whose last position is `(5, 5)` and whose
recorded velocities end in `(2,0), (3,0), (4,0)`, predicting 2 seconds
ahead yields `(5 + 3 * 2, 5) = (11, 5)`. -/
theorem predict_position_spec_witness :
    MovementSmoother.predictPosition smootherC 2 = some (11, 5) := by
  have h := (predict_position_spec smootherC 2).2 (5, 5) rfl (by simp [smootherC])
  rw [h]
  norm_num [smootherC]

/-! ## Evaluation of the concrete smoother runs -/

theorem smootherA1_eq : smootherA1 =
    { windowSize := 5
      smoothingFactor := 1
      positionHistory := [(0, 0)]
      velocityHistory := []
      lastPosition := some (0, 0)
      lastTime := 0
      currentVelocity := (0, 0)
      enableAccelerationSmoothing := true
      enableJitterReduction := true
      jitterThreshold := 2
      maxVelocity := 1000 } := by
  simp [smootherA1, smootherA0, MovementSmoother.smooth, MovementSmoother.init, dequeAppend]

theorem smootherB1_eq : smootherB1 =
    { windowSize := 1
      smoothingFactor := 1 / 2
      positionHistory := [(0, 0)]
      velocityHistory := []
      lastPosition := some (0, 0)
      lastTime := 0
      currentVelocity := (0, 0)
      enableAccelerationSmoothing := true
      enableJitterReduction := true
      jitterThreshold := 2
      maxVelocity := 1000 } := by
  simp [smootherB1, smootherB0, MovementSmoother.smooth, MovementSmoother.init, dequeAppend]
  norm_num

theorem smootherB2_eq : smootherB2 =
    { windowSize := 1
      smoothingFactor := 1 / 2
      positionHistory := [(1, 0)]
      velocityHistory := [(10, 0)]
      lastPosition := some (1, 0)
      lastTime := 1
      currentVelocity := (10, 0)
      enableAccelerationSmoothing := true
      enableJitterReduction := true
      jitterThreshold := 2
      maxVelocity := 1000 } := by
  have h100 : Real.sqrt ((10 - (0:ℝ)) ^ 2 + (0 - (0:ℝ)) ^ 2) = 10 := by
    rw [show ((10 - (0:ℝ)) ^ 2 + (0 - (0:ℝ)) ^ 2) = 100 by norm_num, real_sqrt_hundred]
  rw [smootherB2, smootherB1_eq]
  simp only [MovementSmoother.smooth, MovementSmoother.instVelocity]
  norm_num [h100, dequeAppend]

/-! ## Claim C1: convex combination and factor-1.0 pass-through

The claim fails on the code: when the displacement is below the jitter
threshold the effective factor is silently capped at 0.2 even when 1.0 was
requested, and from the third call onward the moving average blends in
older history points.  What does hold: while fewer than two positions are
recorded (so the moving average is off), the output is a convex combination
of the previous smoothed value and the raw input, and with factor 1.0 it is
exactly the raw input provided neither the jitter cap nor the velocity cap
triggers. -/

/-- **C1** (counterexample): with a `MovementSmoother(5, 1.0)` that has seen
`smooth(0,0)` at time 0, a second call `smooth(1,0)` at time 1 — smoothing
factor 1.0 throughout — returns `(0.2, 0)`, not `(1, 0)`: the displacement 1
is below the jitter threshold 2, so the effective factor is capped at 0.2
and the call is not a pass-through. -/
theorem smooth_factor_one_not_passthrough :
    (MovementSmoother.smooth smootherA1 1 0 1 none).1 ≠ (1, 0) := by
  have heval : (MovementSmoother.smooth smootherA1 1 0 1 none).1 = (0.2, 0) := by
    rw [smootherA1_eq]
    simp only [MovementSmoother.smooth, MovementSmoother.instVelocity]
    norm_num [Real.sqrt_one]
  rw [heval]
  intro h
  rw [Prod.ext_iff] at h
  norm_num at h

/-- **C1** (amended): while the position history holds fewer than two
points (so the moving average does not yet apply), every `smooth` output is
a convex combination of the previous smoothed value and the raw input, for
any requested factor in `[0,1]`; and with requested factor 1.0 the output
is exactly the raw input provided the displacement is at least the jitter
threshold and the instantaneous velocity does not exceed the maximum. -/
theorem smooth_convex_combination (s : SmootherState) (lp : ℝ × ℝ) (x y t f : ℝ)
    (hlp : s.lastPosition = some lp) (hhist : s.positionHistory.length < 2)
    (hf0 : 0 ≤ f) (hf1 : f ≤ 1) :
    (∃ θ : ℝ, 0 ≤ θ ∧ θ ≤ 1 ∧
      (MovementSmoother.smooth s x y t (some f)).1
        = (lp.1 + θ * (x - lp.1), lp.2 + θ * (y - lp.2))) ∧
    (f = 1 → s.jitterThreshold ≤ Real.sqrt ((x - lp.1) ^ 2 + (y - lp.2) ^ 2) →
      Real.sqrt ((MovementSmoother.instVelocity s lp x y t).1 ^ 2 +
          (MovementSmoother.instVelocity s lp x y t).2 ^ 2) ≤ s.maxVelocity →
      (MovementSmoother.smooth s x y t (some f)).1 = (x, y)) := by
  have hm : ¬ (2 ≤ s.positionHistory.length) := by omega
  constructor
  · by_cases hj : (s.enableJitterReduction = true ∧
        Real.sqrt ((x - lp.1) ^ 2 + (y - lp.2) ^ 2) < s.jitterThreshold)
    · by_cases ha : (s.enableAccelerationSmoothing = true ∧
          s.maxVelocity < Real.sqrt ((MovementSmoother.instVelocity s lp x y t).1 ^ 2 +
            (MovementSmoother.instVelocity s lp x y t).2 ^ 2))
      · refine ⟨min (min f 0.2) 0.3, ?_, ?_, ?_⟩
        · exact le_min (le_min hf0 (by norm_num)) (by norm_num)
        · exact le_trans (min_le_left _ _) (le_trans (min_le_left _ _) hf1)
        · simp [MovementSmoother.smooth, hlp, hj, ha, hm]
      · refine ⟨min f 0.2, ?_, ?_, ?_⟩
        · exact le_min hf0 (by norm_num)
        · exact le_trans (min_le_left _ _) hf1
        · simp [MovementSmoother.smooth, hlp, hj, ha, hm]
    · by_cases ha : (s.enableAccelerationSmoothing = true ∧
          s.maxVelocity < Real.sqrt ((MovementSmoother.instVelocity s lp x y t).1 ^ 2 +
            (MovementSmoother.instVelocity s lp x y t).2 ^ 2))
      · refine ⟨min f 0.3, ?_, ?_, ?_⟩
        · exact le_min hf0 (by norm_num)
        · exact le_trans (min_le_left _ _) hf1
        · simp [MovementSmoother.smooth, hlp, hj, ha, hm]
      · refine ⟨f, hf0, hf1, ?_⟩
        simp [MovementSmoother.smooth, hlp, hj, ha, hm]
  · intro hf1' hjit hvel
    have hj : ¬ (s.enableJitterReduction = true ∧
        Real.sqrt ((x - lp.1) ^ 2 + (y - lp.2) ^ 2) < s.jitterThreshold) :=
      fun h => absurd h.2 (not_lt.mpr hjit)
    have ha : ¬ (s.enableAccelerationSmoothing = true ∧
        s.maxVelocity < Real.sqrt ((MovementSmoother.instVelocity s lp x y t).1 ^ 2 +
          (MovementSmoother.instVelocity s lp x y t).2 ^ 2)) :=
      fun h => absurd h.2 (not_lt.mpr hvel)
    simp [MovementSmoother.smooth, hlp, hj, ha, hm, hf1']

/-- Witness for the amended C1: on the recorded state after one call, a
factor-1.0 call with displacement 10 (above the jitter threshold) and
velocity 10 (below the maximum) passes the raw input `(10, 0)` through. -/
theorem smooth_convex_combination_witness :
    smootherA1.jitterThreshold ≤ Real.sqrt ((10 - (0:ℝ)) ^ 2 + (0 - (0:ℝ)) ^ 2) ∧
    (MovementSmoother.smooth smootherA1 10 0 1 (some 1)).1 = (10, 0) := by
  have h10 : Real.sqrt ((10 - (0:ℝ)) ^ 2 + (0 - (0:ℝ)) ^ 2) = 10 := by
    rw [show ((10 - (0:ℝ)) ^ 2 + (0 - (0:ℝ)) ^ 2) = 100 by norm_num, real_sqrt_hundred]
  have hvel : MovementSmoother.instVelocity smootherA1 (0, 0) 10 0 1 = (10, 0) := by
    rw [smootherA1_eq]
    simp [MovementSmoother.instVelocity]
  constructor
  · rw [h10, smootherA1_eq]
    norm_num
  · refine (smooth_convex_combination smootherA1 (0, 0) 10 0 1 1 ?_ ?_ ?_ ?_).2 rfl ?_ ?_
    · rw [smootherA1_eq]
    · rw [smootherA1_eq]
      norm_num
    · norm_num
    · norm_num
    · rw [h10, smootherA1_eq]
      norm_num
    · rw [hvel, smootherA1_eq]
      have hs : Real.sqrt ((10:ℝ) ^ 2 + 0 ^ 2) = 10 := by
        rw [show ((10:ℝ) ^ 2 + 0 ^ 2) = 100 by norm_num, real_sqrt_hundred]
      simp only [hs]
      norm_num

/-! ## Claim C6: jitter capping

The code tests the displacement of the raw input from the LAST SMOOTHED
position, not the difference between two consecutive raw inputs.  After a
heavily smoothed call, consecutive raw inputs can be arbitrarily close
while the distance to the last smoothed position stays large, so no cap is
applied and the displacement exceeds the factor-0.2 displacement. -/

/-- **C6** (counterexample): run `MovementSmoother(1, 0.5)` through
`smooth(0,0,0.1)` at time 0 and `smooth(10,0,0.1)` at time 1 (last smoothed
position `(1,0)`).  The next raw input `(11,0)` differs from the previous
raw input `(10,0)` by `1 <` jitter threshold `2`, yet a factor-1.0 call
returns `(11,0)` — displacement 10 from `(1,0)` — while a factor-0.2 call
returns `(3,0)` — displacement 2.  So the effective factor was not capped
at 0.2 and the displacement bound fails. -/
theorem jitter_cap_raw_inputs_counterexample :
    Real.sqrt (((11:ℝ) - 10) ^ 2 + ((0:ℝ) - 0) ^ 2) < smootherB2.jitterThreshold ∧
    (MovementSmoother.smooth smootherB2 11 0 2 (some 1)).1 = (11, 0) ∧
    (MovementSmoother.smooth smootherB2 11 0 2 (some 0.2)).1 = (3, 0) ∧
    ¬ (Real.sqrt (((11:ℝ) - 1) ^ 2 + ((0:ℝ) - 0) ^ 2)
        ≤ Real.sqrt (((3:ℝ) - 1) ^ 2 + ((0:ℝ) - 0) ^ 2)) := by
  refine ⟨?_, ?_, ?_, ?_⟩
  · rw [smootherB2_eq]
    norm_num [Real.sqrt_one]
  · rw [smootherB2_eq]
    simp only [MovementSmoother.smooth, MovementSmoother.instVelocity]
    norm_num [real_sqrt_hundred]
  · rw [smootherB2_eq]
    simp only [MovementSmoother.smooth, MovementSmoother.instVelocity]
    norm_num [real_sqrt_hundred]
  · have ha : Real.sqrt (((11:ℝ) - 1) ^ 2 + ((0:ℝ) - 0) ^ 2) = 10 := by
      rw [show (((11:ℝ) - 1) ^ 2 + ((0:ℝ) - 0) ^ 2) = 100 by norm_num, real_sqrt_hundred]
    have hb : Real.sqrt (((3:ℝ) - 1) ^ 2 + ((0:ℝ) - 0) ^ 2) = 2 := by
      rw [show (((3:ℝ) - 1) ^ 2 + ((0:ℝ) - 0) ^ 2) = 4 by norm_num, real_sqrt_four]
    rw [ha, hb]
    norm_num

/-- **C6** (amended): when the raw input lies within the jitter threshold
of the LAST SMOOTHED position (the condition the code actually tests) and
jitter reduction is enabled, any requested factor of at least 0.2 behaves
exactly like requesting 0.2 — the whole call result (output point and
updated state) coincides, so the observed displacement equals, hence is at
most, the factor-0.2 displacement. -/
theorem jitter_cap_effective_factor (s : SmootherState) (lp : ℝ × ℝ) (x y t f : ℝ)
    (hlp : s.lastPosition = some lp)
    (hdist : Real.sqrt ((x - lp.1) ^ 2 + (y - lp.2) ^ 2) < s.jitterThreshold)
    (hjr : s.enableJitterReduction = true)
    (hf : 0.2 ≤ f) :
    MovementSmoother.smooth s x y t (some f)
      = MovementSmoother.smooth s x y t (some 0.2) := by
  have hcond : (s.enableJitterReduction = true ∧
      Real.sqrt ((x - lp.1) ^ 2 + (y - lp.2) ^ 2) < s.jitterThreshold) := ⟨hjr, hdist⟩
  simp only [MovementSmoother.smooth, hlp, Option.getD_some, if_pos hcond]
  rw [min_eq_right hf, min_self]

/-- Witness for the amended C6: on the recorded state after one call, an
input at displacement 1 (below the threshold 2) with requested factor 0.7
produces exactly the same call result as factor 0.2. -/
theorem jitter_cap_effective_factor_witness :
    MovementSmoother.smooth smootherA1 1 0 1 (some 0.7)
      = MovementSmoother.smooth smootherA1 1 0 1 (some 0.2) :=
  jitter_cap_effective_factor smootherA1 (0, 0) 1 0 1 0.7 (by rw [smootherA1_eq])
    (by rw [smootherA1_eq]; norm_num [Real.sqrt_one])
    (by rw [smootherA1_eq]) (by norm_num)
